import Mathlib

/-!
Verification of the mm_logger custom rotating file sink
(`src/include/custom_sink.hpp`, with the megabyte-scaling constructor
variant from `src/include/mm_logger/mm_logger.hpp`) and the singleton
Logger facade.  The C++ is shallowly embedded: paths are strings,
timestamps are broken-down time records, the filesystem and clock are
explicit inputs, and each C++ member function becomes a pure Lean
function over an explicit state.
-/

namespace MmLog

/-! ## Path helpers (model of std::filesystem::path decomposition) -/

/-- Filename component of a path: the characters after the last slash
(the whole string when there is no slash).  Models
`std::filesystem::path::filename().string()`. -/
def fileNameOf (s : String) : String :=
  String.mk ((s.toList.reverse.takeWhile (fun c => c ≠ '/')).reverse)

/-- Parent-directory component of a path: the characters before the last
slash (empty when there is no slash, "/" for a file in the root).
Models `std::filesystem::path::parent_path().string()`. -/
def parentPath (s : String) : String :=
  let p := (s.toList.reverse.dropWhile (fun c => c ≠ '/')).reverse
  if p = ['/'] then "/" else String.mk p.dropLast

/-- Path append, modelling `std::filesystem::operator/` on the strings the
sink builds: no separator is inserted after an empty or slash-terminated
left side. -/
def pathAppend (dir name : String) : String :=
  if dir = "" then name
  else if dir.toList.getLast? = some '/' then dir ++ name
  else dir ++ "/" ++ name

/-! ## Timestamp (model of get_timestamp_str) -/

/-- Broken-down local time, the model of the `struct tm` that
`std::localtime` hands to `std::put_time`. -/
structure Tm where
  year : Nat
  month : Nat
  day : Nat
  hour : Nat
  minute : Nat
  second : Nat
  deriving DecidableEq

/-- Two-digit zero-padded decimal field, as printed by strftime "%m", "%d",
"%H", "%M", "%S" for the in-range values `struct tm` produces. -/
def pad2 (n : Nat) : String :=
  String.mk [Nat.digitChar (n / 10 % 10), Nat.digitChar (n % 10)]

/-- Four-digit zero-padded decimal field, as printed by strftime "%Y" for
years below 10000. -/
def pad4 (n : Nat) : String :=
  String.mk [Nat.digitChar (n / 1000 % 10), Nat.digitChar (n / 100 % 10),
             Nat.digitChar (n / 10 % 10), Nat.digitChar (n % 10)]

/-- Model of `get_timestamp_str`: the instant formatted as
"%Y%m%d_%H%M%S". -/
def get_timestamp_str (t : Tm) : String :=
  pad4 t.year ++ pad2 t.month ++ pad2 t.day ++ "_" ++
    pad2 t.hour ++ pad2 t.minute ++ pad2 t.second

/-! ## Filename construction (model of build_filename / create_new_file) -/

/-- Model of `custom_rotating_file_sink::build_filename`: directory and
filename are split off the configured prefix, the directory defaults to
".", and the new name is `dir / (log_type + "." + timestamp + "." +
basename)`. -/
def build_filename (baseFilename logType timestamp : String) : String :=
  let dir := parentPath baseFilename
  let basename := fileNameOf baseFilename
  let dir2 := if dir = "" then "." else dir
  pathAppend dir2 (logType ++ "." ++ timestamp ++ "." ++ basename)

/-- Model of `custom_rotating_file_sink::create_new_file`: name the new
file after the current instant. -/
def create_new_file (baseFilename logType : String) (t : Tm) : String :=
  build_filename baseFilename logType (get_timestamp_str t)

/-! ## Sink state and the write path (model of sink_it_ / flush_) -/

/-- Mutable state of one `custom_rotating_file_sink`, together with its
construction-time configuration.  `fileSize` is the true on-disk size
reported by `file_helper_.size()`; `currentSize` is the approximate
atomic counter `current_size_`.  Times are in the unit of the check
interval (seconds). -/
structure SinkState where
  maxSize : Nat
  maxTotalSize : Nat
  checkInterval : Nat
  currentSize : Nat
  fileSize : Nat
  lastCheck : Nat
  openFile : String
  deriving DecidableEq

/-- Model of the `custom_sink.hpp` constructor: the two size parameters
are stored as given (byte counts), the check interval is 1 second, and
the approximate counter starts at the opened file's size. -/
def sinkCtorBytes (maxSize maxTotalSize : Nat) (initialFileSize : Nat)
    (now : Nat) (openedFile : String) : SinkState :=
  { maxSize := maxSize
    maxTotalSize := maxTotalSize
    checkInterval := 1
    currentSize := initialFileSize
    fileSize := initialFileSize
    lastCheck := now
    openFile := openedFile }

/-- Model of the `mm_logger/mm_logger.hpp` sink constructor variant: the
two size parameters are megabyte counts and are scaled by 1024*1024 at
construction. -/
def sinkCtorMB (maxSizeMB maxTotalSizeMB : Nat) (initialFileSize : Nat)
    (now : Nat) (openedFile : String) : SinkState :=
  { maxSize := maxSizeMB * 1024 * 1024
    maxTotalSize := maxTotalSizeMB * 1024 * 1024
    checkInterval := 1
    currentSize := initialFileSize
    fileSize := initialFileSize
    lastCheck := now
    openFile := openedFile }

/-- Model of `should_check_rotation`: the elapsed steady-clock time since
the last rotation check has reached the check interval. -/
def should_check_rotation (st : SinkState) (now : Nat) : Bool :=
  decide (st.checkInterval ≤ now - st.lastCheck)

/-- Result of one `sink_it_` call: the new sink state, whether the
locked slow path was entered, and whether a rotation was performed. -/
structure StepResult where
  st : SinkState
  enteredSlow : Bool
  rotated : Bool
  deriving DecidableEq

/-- Model of `custom_rotating_file_sink::sink_it_` for one formatted
message of `msgSize` bytes at steady-clock time `now`.  The fast-path
test uses the approximate counter; inside the lock the true file size is
re-read; rotation closes the file, opens `newFile` (size 0) and resets
the counter; otherwise the counter is corrected to the true size; in
every case the message is then written, growing both sizes. -/
def sink_it_ (st : SinkState) (msgSize : Nat) (now : Nat)
    (newFile : String) : StepResult :=
  if st.currentSize + msgSize > st.maxSize || should_check_rotation st now then
    if st.fileSize + msgSize > st.maxSize then
      { st := { st with
                openFile := newFile
                fileSize := msgSize
                currentSize := msgSize
                lastCheck := now }
        enteredSlow := true
        rotated := true }
    else
      { st := { st with
                currentSize := st.fileSize + msgSize
                fileSize := st.fileSize + msgSize
                lastCheck := now }
        enteredSlow := true
        rotated := false }
  else
    { st := { st with
              currentSize := st.currentSize + msgSize
              fileSize := st.fileSize + msgSize }
      enteredSlow := false
      rotated := false }

/-- Observable operations a sink call can perform besides mutating its
state. -/
inductive SinkOp where
  | writeBytes : Nat → SinkOp
  | rotateTo : String → SinkOp
  | aliasUpdate : String → SinkOp
  | cleanupRun : SinkOp
  | fileFlush : SinkOp
  deriving DecidableEq

/-- Model of `custom_rotating_file_sink::flush_`: it only forwards to
`file_helper_.flush()`; the sink state is returned untouched. -/
def flush_ (st : SinkState) : SinkState × List SinkOp :=
  (st, [SinkOp.fileFlush])

/-- One pending message in a serialized schedule of `sink_it_` calls:
its formatted size, the steady-clock time at which the call runs, and
the filename a rotation would create. -/
structure MsgEvent where
  size : Nat
  now : Nat
  newFile : String
  deriving DecidableEq

/-- Total formatted bytes of a schedule of messages. -/
def msgTotal : List MsgEvent → Nat
  | [] => 0
  | e :: rest => e.size + msgTotal rest

/-- Run a schedule of `sink_it_` calls in order (the order in which the
racing threads pass through the sink's locks), counting rotations. -/
def runSink : SinkState → List MsgEvent → SinkState × Nat
  | st, [] => (st, 0)
  | st, e :: rest =>
    let r := sink_it_ st e.size e.now e.newFile
    let p := runSink r.st rest
    (p.1, (if r.rotated then 1 else 0) + p.2)

/-! ## Retention cleanup (model of cleanup_old_files) -/

/-- One entry the directory iterator yields: its full path, whether it is
a regular file, its size and last-write time, and an oracle bit telling
whether `std::filesystem::remove` would throw on it. -/
structure DirEnt where
  path : String
  isRegular : Bool
  size : Nat
  mtime : Nat
  deleteFails : Bool
  deriving DecidableEq

/-- Character-list version of `std::string::isPre`-style matching:
`startsWithChars needle hay` is true when `needle` is an initial segment
of `hay` (models `filename.find(p) == 0`). -/
def startsWithChars : List Char → List Char → Bool
  | [], _ => true
  | _ :: _, [] => false
  | a :: as, b :: bs => a = b && startsWithChars as bs

/-- Substring containment on character lists (models
`filename.find(s) != std::string::npos`). -/
def containsChars (needle : List Char) : List Char → Bool
  | [] => startsWithChars needle []
  | c :: rest => startsWithChars needle (c :: rest) || containsChars needle rest

/-- Filename filter of `cleanup_old_files`: the name starts with
`log_type + "."` and contains the base filename somewhere. -/
def nameMatches (pfx baseName filename : String) : Bool :=
  startsWithChars pfx.toList filename.toList &&
    containsChars baseName.toList filename.toList

/-- The matched set `log_files` collected by `cleanup_old_files`:
regular files whose filename matches the stream's naming pattern. -/
def matchedLogFiles (entries : List DirEnt) (logType baseName : String) :
    List DirEnt :=
  entries.filter (fun e =>
    e.isRegular && nameMatches (logType ++ ".") baseName (fileNameOf e.path))

/-- Insert one entry into a list that is ascending by `mtime`. -/
def insertByMtime (f : DirEnt) : List DirEnt → List DirEnt
  | [] => [f]
  | g :: gs => if f.mtime < g.mtime then f :: g :: gs else g :: insertByMtime f gs

/-- Sort entries ascending by last-write time (model of the `std::sort`
call with the `last_write_time` comparator). -/
def sortByMtime : List DirEnt → List DirEnt
  | [] => []
  | f :: fs => insertByMtime f (sortByMtime fs)

/-- Sum of the on-disk sizes of a list of entries. -/
def sumSizes : List DirEnt → Nat
  | [] => 0
  | f :: rest => f.size + sumSizes rest

/-- Deletion loop of `cleanup_old_files`: walk the sorted list, never
touching the final (newest) element, while the running total exceeds the
budget; a file whose path is the open file's is skipped, a file whose
removal throws is skipped (`catch { continue; }`), every other file is
deleted and its size subtracted.  Returns (deleted, kept). -/
def cleanupLoop (openPath : String) (maxTotal : Nat) :
    List DirEnt → Nat → List DirEnt × List DirEnt
  | [], _ => ([], [])
  | [f], _ => ([], [f])
  | f :: g :: rest, total =>
    if total ≤ maxTotal then ([], f :: g :: rest)
    else if f.path = openPath then
      let r := cleanupLoop openPath maxTotal (g :: rest) total
      (r.1, f :: r.2)
    else if f.deleteFails then
      let r := cleanupLoop openPath maxTotal (g :: rest) total
      (r.1, f :: r.2)
    else
      let r := cleanupLoop openPath maxTotal (g :: rest) (total - f.size)
      (f :: r.1, r.2)

/-- Model of `custom_rotating_file_sink::cleanup_old_files`.
`listingFails` is true when the directory iteration throws (the function
then returns with nothing deleted); otherwise the matched files are
collected, sets of at most one file are left alone, and the sorted list
is pruned by `cleanupLoop` starting from the total of all matched sizes.
Returns (deleted files, files remaining on disk). -/
def cleanup_old_files (listingFails : Bool) (entries : List DirEnt)
    (openPath logType baseFilename : String) (maxTotal : Nat) :
    List DirEnt × List DirEnt :=
  let baseName := fileNameOf baseFilename
  let files := matchedLogFiles entries logType baseName
  if listingFails then ([], files)
  else if files.length ≤ 1 then ([], files)
  else
    let sorted := sortByMtime files
    cleanupLoop openPath maxTotal sorted (sumSizes sorted)

/-! ## Alias maintenance (model of update_symlink) -/

/-- Failure oracle for one `update_symlink` call: whether the alias path
already exists, whether `std::filesystem::remove` throws, whether
`std::filesystem::create_symlink` throws, and whether the fallback shell
command exits nonzero. -/
structure SymlinkEnv where
  aliasExists : Bool
  removeThrows : Bool
  createThrows : Bool
  shellFails : Bool
  deriving DecidableEq

/-- Filesystem-visible action performed by `update_symlink`. -/
inductive FsAction where
  | removeFile : String → FsAction
  | makeLink : String → String → FsAction
  | shellCmd : String → FsAction
  deriving DecidableEq

/-- The stable alias path manipulated by `update_symlink`:
`dir(target_file) / (basename(base_filename) + "." + log_type)`. -/
def aliasPath (baseFilename logType targetFile : String) : String :=
  pathAppend (parentPath targetFile) (fileNameOf baseFilename ++ "." ++ logType)

/-- Model of `custom_rotating_file_sink::update_symlink`: the alias path
is `dir(target) / (basename(base_filename) + "." + log_type)`; an
existing alias is removed first; the symlink target is the bare filename
of the target file; any exception in the try block falls back to a
`system("ln -sf ...")` call whose exit status is ignored (the `shellFails`
oracle does not affect the outcome). -/
def update_symlink (baseFilename logType targetFile : String)
    (env : SymlinkEnv) : List FsAction :=
  let dirPath := parentPath targetFile
  let basename := fileNameOf baseFilename
  let symlinkName := pathAppend dirPath (basename ++ "." ++ logType)
  let targetFilename := fileNameOf targetFile
  let fallback := FsAction.shellCmd ("ln -sf " ++ targetFilename ++ " " ++ symlinkName)
  if env.aliasExists then
    if env.removeThrows then [fallback]
    else if env.createThrows then [FsAction.removeFile symlinkName, fallback]
    else [FsAction.removeFile symlinkName,
          FsAction.makeLink targetFilename symlinkName]
  else
    if env.createThrows then [fallback]
    else [FsAction.makeLink targetFilename symlinkName]

/-! ## Logger facade (model of mm_log::Logger in mm_logger/mm_logger.hpp) -/

/-- Arguments of one `Logger::Initialize` call that the control flow
depends on, plus an oracle for whether the spdlog setup throws. -/
structure InitArgs where
  enableDebug : Bool
  enableConsole : Bool
  enableFile : Bool
  setupThrows : Bool
  deriving DecidableEq

/-- State of the singleton `Logger`: whether the `std::once_flag` has
been consumed, the `initialized_` atomic, the saved enable flags, the
number of sinks created, and whether "main_logger" was registered. -/
structure LoggerState where
  onceDone : Bool
  initialized : Bool
  enableDebug : Bool
  enableConsole : Bool
  enableFile : Bool
  sinkCount : Nat
  registered : Bool
  deriving DecidableEq

/-- The freshly constructed singleton (private constructor of Logger). -/
def loggerInitialState : LoggerState :=
  { onceDone := false
    initialized := false
    enableDebug := true
    enableConsole := true
    enableFile := true
    sinkCount := 0
    registered := false }

/-- Model of `Logger::Initialize`: the body runs under `std::call_once`
only on the first call; with both console and file output disabled it
stores `initialized_ = false` and creates nothing; a throwing spdlog
setup likewise leaves the logger uninitialized; otherwise one console
sink and/or three file sinks are created and the async logger is
registered.  The return value is `initialized_.load()` after the
call_once block. -/
def loggerInit (st : LoggerState) (a : InitArgs) : LoggerState × Bool :=
  if st.onceDone then (st, st.initialized)
  else
    let st1 := { st with
                 onceDone := true
                 enableDebug := a.enableDebug
                 enableConsole := a.enableConsole
                 enableFile := a.enableFile }
    if a.enableConsole = false && a.enableFile = false then
      ({ st1 with initialized := false }, false)
    else if a.setupThrows then
      ({ st1 with initialized := false }, false)
    else
      let st2 := { st1 with
        sinkCount := (if a.enableConsole then 1 else 0) +
                     (if a.enableFile then 3 else 0)
        registered := true
        initialized := true }
      (st2, true)

/-- Fold a sequence of further `Initialize` calls over the logger
state. -/
def loggerInitAll (st : LoggerState) : List InitArgs → LoggerState
  | [] => st
  | a :: rest => loggerInitAll (loggerInit st a).1 rest

/-- Model of the guard structure of `Logger::Log`: a call writes a
message only when the logger is initialized, the level is not a disabled
DEBUG, and the registered "main_logger" can be looked up. -/
def logWrites (st : LoggerState) (isDebugLevel : Bool) : Bool :=
  if st.initialized = false then false
  else if isDebugLevel && !st.enableDebug then false
  else st.registered

end MmLog

namespace MmLog

/-! ## Theorems -/

/-- Claim C1: for every `sink_it_` call with a formatted message of size
`m`, the slow path is entered exactly when the approximate
`current_size + m` exceeds `max_size` or the time since the last
rotation check has reached the check interval (which the constructor
sets to 1 second); on the slow path rotation happens if and only if the
true on-disk size plus `m` exceeds `max_size`; without rotation the
approximate counter is re-derived from the on-disk size; and in every
case the message is written (both sizes grow by `m`), rotating only on
the slow path. -/
theorem claim1_rotation_decision (st : SinkState) (m now : Nat) (nf : String)
    (a b s n2 : Nat) (f2 : String) :
    ((sink_it_ st m now nf).enteredSlow
        = (decide (st.maxSize < st.currentSize + m)
            || decide (st.checkInterval ≤ now - st.lastCheck)))
  ∧ ((sink_it_ st m now nf).rotated
        = ((sink_it_ st m now nf).enteredSlow
            && decide (st.maxSize < st.fileSize + m)))
  ∧ ((sink_it_ st m now nf).st.currentSize
        = (if (sink_it_ st m now nf).rotated then m
           else if (sink_it_ st m now nf).enteredSlow then st.fileSize + m
           else st.currentSize + m))
  ∧ ((sink_it_ st m now nf).st.fileSize
        = (if (sink_it_ st m now nf).rotated then m else st.fileSize + m))
  ∧ ((sink_it_ st m now nf).st.openFile
        = (if (sink_it_ st m now nf).rotated then nf else st.openFile))
  ∧ ((sink_it_ st m now nf).st.lastCheck
        = (if (sink_it_ st m now nf).enteredSlow then now else st.lastCheck))
  ∧ (sinkCtorBytes a b s n2 f2).checkInterval = 1 := by
  by_cases h1 : st.maxSize < st.currentSize + m <;>
    by_cases h2 : st.checkInterval ≤ now - st.lastCheck <;>
      by_cases h3 : st.maxSize < st.fileSize + m <;>
        simp [sink_it_, should_check_rotation, sinkCtorBytes, h1, h2, h3]

end MmLog

namespace MmLog

/-- Claim C7 counterexample: the sink constructor in
`mm_logger/mm_logger.hpp` does apply unit scaling: configured sizes 10
and 50 become thresholds 10*1024*1024 and 50*1024*1024, not the
configured integers themselves. -/
theorem claim7_counterexample :
    (sinkCtorMB 10 50 0 0 "log").maxSize = 10485760
  ∧ (sinkCtorMB 10 50 0 0 "log").maxTotalSize = 52428800
  ∧ (decide ((sinkCtorMB 10 50 0 0 "log").maxSize = 10)) = false := by
  exact ⟨rfl, rfl, by decide⟩

/-- Claim C7 amended: the `custom_sink.hpp` constructor stores the two
size parameters as byte counts with no scaling, while the sink variant
in `mm_logger/mm_logger.hpp` interprets them as megabyte counts and
multiplies each by 1024*1024 at construction. -/
theorem claim7_amended (a b s n : Nat) (f : String) :
    (sinkCtorBytes a b s n f).maxSize = a
  ∧ (sinkCtorBytes a b s n f).maxTotalSize = b
  ∧ (sinkCtorMB a b s n f).maxSize = a * 1024 * 1024
  ∧ (sinkCtorMB a b s n f).maxTotalSize = b * 1024 * 1024 := by
  exact ⟨rfl, rfl, rfl, rfl⟩

/-- Claim C8: `flush_` only flushes the underlying file handle: the sink
state (approximate size counter, last-check timestamp, open file, and
every other field) is unchanged, and the only operation performed is the
file flush — no rotation, alias update, file creation or cleanup. -/
theorem claim8_flush_frame (st : SinkState) (f : String) :
    (flush_ st).1 = st
  ∧ (flush_ st).2 = [SinkOp.fileFlush]
  ∧ (flush_ st).1.currentSize = st.currentSize
  ∧ (flush_ st).1.lastCheck = st.lastCheck
  ∧ (flush_ st).1.openFile = st.openFile
  ∧ ((flush_ st).2.contains (SinkOp.rotateTo f)) = false
  ∧ ((flush_ st).2.contains (SinkOp.aliasUpdate f)) = false
  ∧ ((flush_ st).2.contains SinkOp.cleanupRun) = false := by
  refine ⟨rfl, rfl, rfl, rfl, rfl, ?_, ?_, ?_⟩ <;> simp [flush_]

/-- Decimal digit characters are digits. -/
theorem digitChar_isDigit {k : Nat} (h : k < 10) :
    (Nat.digitChar k).isDigit = true := by
  interval_cases k <;> decide

end MmLog

namespace MmLog

/-- Separator form of path append: when the directory is nonempty and
not slash-terminated, appending inserts exactly one "/". -/
theorem pathAppend_sep (dir name : String) (h1 : dir ≠ "")
    (h2 : dir.toList.getLast? ≠ some '/') :
    pathAppend dir name = dir ++ "/" ++ name := by
  unfold pathAppend
  rw [if_neg h1, if_neg h2]

/-- Claim C4: for every configured prefix, stream tag and rotation
instant, the new log file's name is exactly
`{directory}/{stream_tag}.{timestamp}.{base_filename}`, where the
directory is the prefix's parent directory (defaulting to ".") and the
timestamp is the instant formatted as YYYYMMDD_HHMMSS: eight digits, an
underscore, then six digits. -/
theorem claim4_filename_format (p tag : String) (t : Tm)
    (hdir : (parentPath p).toList.getLast? ≠ some '/') :
    build_filename p tag (get_timestamp_str t)
      = (if parentPath p = "" then "." else parentPath p) ++ "/" ++ tag ++ "."
          ++ get_timestamp_str t ++ "." ++ fileNameOf p
  ∧ (∃ a b, get_timestamp_str t = a ++ "_" ++ b ∧ a.length = 8 ∧ b.length = 6
      ∧ (∀ c ∈ a.toList, c.isDigit = true)
      ∧ (∀ c ∈ b.toList, c.isDigit = true)) := by
  constructor
  · have hne : (if parentPath p = "" then "." else parentPath p) ≠ "" := by
      by_cases h0 : parentPath p = "" <;> simp [h0]
    have hlast : (if parentPath p = "" then "." else parentPath p).toList.getLast?
        ≠ some '/' := by
      by_cases h0 : parentPath p = ""
      · rw [if_pos h0]; decide
      · rw [if_neg h0]; exact hdir
    simp only [build_filename]
    rw [pathAppend_sep _ _ hne hlast]
    apply String.toList_inj.mp
    simp
  · refine ⟨pad4 t.year ++ pad2 t.month ++ pad2 t.day,
      pad2 t.hour ++ pad2 t.minute ++ pad2 t.second, ?_, ?_, ?_, ?_, ?_⟩
    · apply String.toList_inj.mp
      simp [get_timestamp_str]
    · simp [pad4, pad2]
    · simp [pad2]
    · intro c hc
      simp [pad4, pad2] at hc
      rcases hc with h|h|h|h|h|h|h|h <;> subst h <;>
        exact digitChar_isDigit (Nat.mod_lt _ (by omega))
    · intro c hc
      simp [pad2] at hc
      rcases hc with h|h|h|h|h|h <;> subst h <;>
        exact digitChar_isDigit (Nat.mod_lt _ (by omega))

/-- Claim C4 witness: the naming rule evaluated for the prefix
"logs/app_log", stream tag "INFO" and the instant 2025-04-10 12:30:45. -/
theorem claim4_witness :
    (parentPath "logs/app_log").toList.getLast? ≠ some '/'
  ∧ (build_filename "logs/app_log" "INFO"
        (get_timestamp_str ⟨2025, 4, 10, 12, 30, 45⟩)
      = (if parentPath "logs/app_log" = "" then "."
         else parentPath "logs/app_log") ++ "/" ++ "INFO" ++ "."
          ++ get_timestamp_str ⟨2025, 4, 10, 12, 30, 45⟩ ++ "."
          ++ fileNameOf "logs/app_log"
    ∧ (∃ a b, get_timestamp_str ⟨2025, 4, 10, 12, 30, 45⟩ = a ++ "_" ++ b
        ∧ a.length = 8 ∧ b.length = 6
        ∧ (∀ c ∈ a.toList, c.isDigit = true)
        ∧ (∀ c ∈ b.toList, c.isDigit = true))) :=
  ⟨by decide,
   claim4_filename_format "logs/app_log" "INFO" ⟨2025, 4, 10, 12, 30, 45⟩
     (by decide)⟩

end MmLog

namespace MmLog

/-- The filename component of a path never contains a slash, so the
symlink target `update_symlink` uses is a bare relative filename. -/
theorem fileNameOf_no_slash (s : String) : '/' ∉ (fileNameOf s).toList := by
  intro h
  have h2 : '/' ∈ (s.toList.reverse.takeWhile (fun c => c ≠ '/')).reverse := h
  rw [List.mem_reverse] at h2
  have h3 := List.mem_takeWhile_imp h2
  simp at h3

/-- Claim C5: after a rotation `update_symlink` removes any pre-existing
alias at `{directory}/{base_filename}.{stream_tag}` (exactly when one
exists and its removal does not throw), creates a symbolic link at that
path whose target is the new file's bare filename (which contains no
slash, hence is relative); when either filesystem call throws it falls
back to an `ln -sf` shell invocation, and a failure of that fallback
changes nothing (the outcome is independent of the shell's exit
status). -/
theorem claim5_symlink (base logType target : String) (env : SymlinkEnv) :
    (FsAction.removeFile (aliasPath base logType target)
        ∈ update_symlink base logType target env
       ↔ env.aliasExists = true ∧ env.removeThrows = false)
  ∧ (FsAction.makeLink (fileNameOf target) (aliasPath base logType target)
        ∈ update_symlink base logType target env
       ↔ env.createThrows = false
          ∧ (env.aliasExists = false ∨ env.removeThrows = false))
  ∧ (FsAction.shellCmd ("ln -sf " ++ fileNameOf target ++ " "
          ++ aliasPath base logType target)
        ∈ update_symlink base logType target env
       ↔ (env.aliasExists = true ∧ env.removeThrows = true)
          ∨ env.createThrows = true)
  ∧ '/' ∉ (fileNameOf target).toList
  ∧ update_symlink base logType target env
      = update_symlink base logType target
          ⟨env.aliasExists, env.removeThrows, env.createThrows, true⟩ := by
  obtain ⟨ae, rt, ct, sf⟩ := env
  refine ⟨?_, ?_, ?_, fileNameOf_no_slash target, ?_⟩ <;>
    cases ae <;> cases rt <;> cases ct <;>
      simp [update_symlink, aliasPath]

/-- Claim C5 witness: the alias update evaluated for prefix "app_log",
stream tag "INFO", a fresh rotation target in "logs", and an
environment in which the old alias exists and no filesystem call
throws. -/
theorem claim5_witness :
    (FsAction.removeFile
          (aliasPath "app_log" "INFO" "logs/INFO.20250410_123045.app_log")
        ∈ update_symlink "app_log" "INFO" "logs/INFO.20250410_123045.app_log"
            ⟨true, false, false, false⟩
       ↔ (true : Bool) = true ∧ (false : Bool) = false)
  ∧ (FsAction.makeLink (fileNameOf "logs/INFO.20250410_123045.app_log")
          (aliasPath "app_log" "INFO" "logs/INFO.20250410_123045.app_log")
        ∈ update_symlink "app_log" "INFO" "logs/INFO.20250410_123045.app_log"
            ⟨true, false, false, false⟩
       ↔ (false : Bool) = false ∧ ((true : Bool) = false ∨ (false : Bool) = false))
  ∧ (FsAction.shellCmd ("ln -sf "
          ++ fileNameOf "logs/INFO.20250410_123045.app_log" ++ " "
          ++ aliasPath "app_log" "INFO" "logs/INFO.20250410_123045.app_log")
        ∈ update_symlink "app_log" "INFO" "logs/INFO.20250410_123045.app_log"
            ⟨true, false, false, false⟩
       ↔ ((true : Bool) = true ∧ (false : Bool) = true) ∨ (false : Bool) = true)
  ∧ '/' ∉ (fileNameOf "logs/INFO.20250410_123045.app_log").toList
  ∧ update_symlink "app_log" "INFO" "logs/INFO.20250410_123045.app_log"
        ⟨true, false, false, false⟩
      = update_symlink "app_log" "INFO" "logs/INFO.20250410_123045.app_log"
          ⟨true, false, false, true⟩ := by
  exact claim5_symlink "app_log" "INFO" "logs/INFO.20250410_123045.app_log"
    ⟨true, false, false, false⟩

end MmLog

namespace MmLog

/-- Files deleted by the cleanup loop never have the open file's path,
never are files whose removal throws, and always come from the sorted
list with its final (newest) element removed. -/
theorem cleanupLoop_deleted_spec (o : String) (mt : Nat) :
    ∀ (l : List DirEnt) (total : Nat),
      (∀ f ∈ (cleanupLoop o mt l total).1, f.path ≠ o ∧ f.deleteFails = false)
      ∧ List.Sublist (cleanupLoop o mt l total).1 l.dropLast
  | [], _ => by simp [cleanupLoop]
  | [f], _ => by simp [cleanupLoop]
  | f :: g :: rest, total => by
    by_cases h1 : total ≤ mt
    · simp [cleanupLoop, h1]
    · by_cases h2 : f.path = o
      · have IH := cleanupLoop_deleted_spec o mt (g :: rest) total
        simp only [cleanupLoop, if_neg h1, if_pos h2]
        exact ⟨IH.1, by rw [List.dropLast_cons₂]; exact IH.2.cons f⟩
      · by_cases h3 : f.deleteFails
        · have IH := cleanupLoop_deleted_spec o mt (g :: rest) total
          simp only [cleanupLoop, if_neg h1, if_neg h2, if_pos h3]
          exact ⟨IH.1, by rw [List.dropLast_cons₂]; exact IH.2.cons f⟩
        · have IH := cleanupLoop_deleted_spec o mt (g :: rest) (total - f.size)
          simp only [cleanupLoop, if_neg h1, if_neg h2, if_neg h3]
          constructor
          · intro x hx
            rcases List.mem_cons.mp hx with h | h
            · subst h
              exact ⟨h2, by simpa using h3⟩
            · exact IH.1 x h
          · rw [List.dropLast_cons₂]
            exact IH.2.cons₂ f

/-- The cleanup loop partitions its input: deleted and kept files
together are a permutation of the examined list. -/
theorem cleanupLoop_perm (o : String) (mt : Nat) :
    ∀ (l : List DirEnt) (total : Nat),
      List.Perm ((cleanupLoop o mt l total).1 ++ (cleanupLoop o mt l total).2) l
  | [], _ => by simp [cleanupLoop]
  | [f], _ => by simp [cleanupLoop]
  | f :: g :: rest, total => by
    by_cases h1 : total ≤ mt
    · simp [cleanupLoop, h1]
    · by_cases h2 : f.path = o
      · have IH := cleanupLoop_perm o mt (g :: rest) total
        simp only [cleanupLoop, if_neg h1, if_pos h2]
        exact List.perm_middle.trans (IH.cons f)
      · by_cases h3 : f.deleteFails
        · have IH := cleanupLoop_perm o mt (g :: rest) total
          simp only [cleanupLoop, if_neg h1, if_neg h2, if_pos h3]
          exact List.perm_middle.trans (IH.cons f)
        · have IH := cleanupLoop_perm o mt (g :: rest) (total - f.size)
          simp only [cleanupLoop, if_neg h1, if_neg h2, if_neg h3]
          exact IH.cons f

/-- When the loop starts from the exact total of the examined files, and
neither the open file nor a failing deletion sits among the first n-1
entries, it ends under budget or with at most one file kept. -/
theorem cleanupLoop_budget (o : String) (mt : Nat) :
    ∀ (l : List DirEnt) (total : Nat), total = sumSizes l →
      (∀ f ∈ l.dropLast, f.path ≠ o ∧ f.deleteFails = false) →
      sumSizes (cleanupLoop o mt l total).2 ≤ mt
        ∨ (cleanupLoop o mt l total).2.length ≤ 1
  | [], _, _, _ => by simp [cleanupLoop]
  | [f], _, _, _ => by simp [cleanupLoop]
  | f :: g :: rest, total, htot, hsafe => by
    by_cases h1 : total ≤ mt
    · left
      simp only [cleanupLoop, if_pos h1]
      omega
    · have hf : f ∈ (f :: g :: rest).dropLast := by
        rw [List.dropLast_cons₂]
        exact List.mem_cons_self f _
      obtain ⟨hp, hd⟩ := hsafe f hf
      have htail : ∀ x ∈ (g :: rest).dropLast, x.path ≠ o ∧ x.deleteFails = false := by
        intro x hx
        apply hsafe
        rw [List.dropLast_cons₂]
        exact List.mem_cons_of_mem f hx
      have htot2 : total - f.size = sumSizes (g :: rest) := by
        simp only [sumSizes] at htot ⊢
        omega
      have IH := cleanupLoop_budget o mt (g :: rest) (total - f.size) htot2 htail
      have hd2 : ¬ f.deleteFails = true := by simp [hd]
      simp only [cleanupLoop, if_neg h1, if_neg hp, if_neg hd2]
      exact IH

/-- Inserting into the mtime-sorted list is a permutation of consing. -/
theorem insertByMtime_perm (f : DirEnt) :
    ∀ l, List.Perm (insertByMtime f l) (f :: l)
  | [] => by simp [insertByMtime]
  | g :: gs => by
    by_cases h : f.mtime < g.mtime
    · simp [insertByMtime, h]
    · simp only [insertByMtime, if_neg h]
      exact ((insertByMtime_perm f gs).cons g).trans (List.Perm.swap f g gs)

/-- Sorting by mtime permutes the matched file list. -/
theorem sortByMtime_perm : ∀ l, List.Perm (sortByMtime l) l
  | [] => by simp [sortByMtime]
  | f :: fs => by
    simp only [sortByMtime]
    exact (insertByMtime_perm f (sortByMtime fs)).trans ((sortByMtime_perm fs).cons f)

end MmLog

namespace MmLog

/-- Claim C3: retention cleanup never deletes the file currently open
for writing — for every state of the matched file set, every retention
budget, and every error oracle, each deleted file's path differs from
the open file's path, and the deleted files form a sublist of the
mtime-sorted matched list with its newest element removed (the newest
file is never examined for deletion). -/
theorem claim3_open_file_safe (lf : Bool) (entries : List DirEnt)
    (openPath logType baseFilename : String) (maxTotal : Nat) :
    ((cleanup_old_files lf entries openPath logType baseFilename maxTotal).1.all
        (fun f => !(f.path == openPath))) = true
  ∧ List.Sublist
      (cleanup_old_files lf entries openPath logType baseFilename maxTotal).1
      (sortByMtime (matchedLogFiles entries logType
          (fileNameOf baseFilename))).dropLast := by
  cases lf
  · by_cases hlen :
        (matchedLogFiles entries logType (fileNameOf baseFilename)).length ≤ 1
    · simp [cleanup_old_files, hlen]
    · have H := cleanupLoop_deleted_spec openPath maxTotal
        (sortByMtime (matchedLogFiles entries logType (fileNameOf baseFilename)))
        (sumSizes (sortByMtime (matchedLogFiles entries logType
            (fileNameOf baseFilename))))
      constructor
      · simp only [cleanup_old_files, Bool.false_eq_true, if_false, if_neg hlen]
        exact List.all_eq_true.mpr (fun f hf => by
          simpa using (H.1 f hf).1)
      · simp only [cleanup_old_files, Bool.false_eq_true, if_false, if_neg hlen]
        exact H.2
  · simp [cleanup_old_files]

/-- Claim C2: when the open file is not among the prunable (non-newest)
sorted entries and no deletion throws, cleanup ends with the retained
matched files within the retention budget or with at most one file
remaining; and with at most one matched file cleanup returns at once,
deleting nothing. -/
theorem claim2_retention_budget (entries : List DirEnt)
    (openPath logType baseFilename : String) (maxTotal : Nat)
    (hsafe : ((sortByMtime (matchedLogFiles entries logType
          (fileNameOf baseFilename))).dropLast.all
        (fun f => !(f.path == openPath) && !f.deleteFails)) = true) :
    (sumSizes (cleanup_old_files false entries openPath logType baseFilename
          maxTotal).2 ≤ maxTotal
      ∨ (cleanup_old_files false entries openPath logType baseFilename
          maxTotal).2.length ≤ 1)
  ∧ ((matchedLogFiles entries logType (fileNameOf baseFilename)).length ≤ 1 →
      cleanup_old_files false entries openPath logType baseFilename maxTotal
        = ([], matchedLogFiles entries logType (fileNameOf baseFilename))) := by
  constructor
  · by_cases hlen :
        (matchedLogFiles entries logType (fileNameOf baseFilename)).length ≤ 1
    · right
      simp [cleanup_old_files, hlen]
    · have hs : ∀ f ∈ (sortByMtime (matchedLogFiles entries logType
          (fileNameOf baseFilename))).dropLast,
          f.path ≠ openPath ∧ f.deleteFails = false := by
        intro f hf
        have h2 := List.all_eq_true.mp hsafe f hf
        rw [Bool.and_eq_true] at h2
        constructor
        · simpa using h2.1
        · simpa using h2.2
      have H := cleanupLoop_budget openPath maxTotal
        (sortByMtime (matchedLogFiles entries logType (fileNameOf baseFilename)))
        (sumSizes (sortByMtime (matchedLogFiles entries logType
            (fileNameOf baseFilename)))) rfl hs
      simpa only [cleanup_old_files, Bool.false_eq_true, if_false, if_neg hlen]
        using H
  · intro hlen
    simp [cleanup_old_files, hlen]

/-- Claim C2 witness: two matched files of 10 bytes against a 5-byte
budget, the open file being the newest; cleanup deletes the older file
and keeps only the open one. -/
theorem claim2_witness :
    (((sortByMtime (matchedLogFiles
          [(⟨"logs/INFO.20250101_000000.app", true, 10, 1, false⟩ : DirEnt),
           (⟨"logs/INFO.20250101_000001.app", true, 10, 2, false⟩ : DirEnt)]
          "INFO" (fileNameOf "logs/app"))).dropLast.all
        (fun f => !(f.path == "logs/INFO.20250101_000001.app")
            && !f.deleteFails)) = true)
  ∧ ((sumSizes (cleanup_old_files false
          [(⟨"logs/INFO.20250101_000000.app", true, 10, 1, false⟩ : DirEnt),
           (⟨"logs/INFO.20250101_000001.app", true, 10, 2, false⟩ : DirEnt)]
          "logs/INFO.20250101_000001.app" "INFO" "logs/app" 5).2 ≤ 5
      ∨ (cleanup_old_files false
          [(⟨"logs/INFO.20250101_000000.app", true, 10, 1, false⟩ : DirEnt),
           (⟨"logs/INFO.20250101_000001.app", true, 10, 2, false⟩ : DirEnt)]
          "logs/INFO.20250101_000001.app" "INFO" "logs/app" 5).2.length ≤ 1)
    ∧ ((matchedLogFiles
          [(⟨"logs/INFO.20250101_000000.app", true, 10, 1, false⟩ : DirEnt),
           (⟨"logs/INFO.20250101_000001.app", true, 10, 2, false⟩ : DirEnt)]
          "INFO" (fileNameOf "logs/app")).length ≤ 1 →
        cleanup_old_files false
          [(⟨"logs/INFO.20250101_000000.app", true, 10, 1, false⟩ : DirEnt),
           (⟨"logs/INFO.20250101_000001.app", true, 10, 2, false⟩ : DirEnt)]
          "logs/INFO.20250101_000001.app" "INFO" "logs/app" 5
          = ([], matchedLogFiles
              [(⟨"logs/INFO.20250101_000000.app", true, 10, 1, false⟩ : DirEnt),
               (⟨"logs/INFO.20250101_000001.app", true, 10, 2, false⟩ : DirEnt)]
              "INFO" (fileNameOf "logs/app")))) :=
  ⟨by decide,
   claim2_retention_budget
     [⟨"logs/INFO.20250101_000000.app", true, 10, 1, false⟩,
      ⟨"logs/INFO.20250101_000001.app", true, 10, 2, false⟩]
     "logs/INFO.20250101_000001.app" "INFO" "logs/app" 5 (by decide)⟩

/-- Claim C6 counterexample: with three matched files sorted oldest
first, a zero budget, and a deletion error on the oldest file, cleanup
does not stop at the first error: it continues and still deletes the
second file.  This refutes the claim that any deletion error causes
cleanup to stop with no further deletions. -/
theorem claim6_counterexample :
    (cleanup_old_files false
        [(⟨"INFO.20250101_000000.app", true, 5, 1, true⟩ : DirEnt),
         (⟨"INFO.20250101_000001.app", true, 5, 2, false⟩ : DirEnt),
         (⟨"INFO.20250101_000002.app", true, 5, 3, false⟩ : DirEnt)]
        "INFO.20250101_000002.app" "INFO" "app" 0).1
      = [⟨"INFO.20250101_000001.app", true, 5, 2, false⟩]
  ∧ (⟨"INFO.20250101_000000.app", true, 5, 1, true⟩ : DirEnt).deleteFails = true
  ∧ sortByMtime (matchedLogFiles
        [(⟨"INFO.20250101_000000.app", true, 5, 1, true⟩ : DirEnt),
         (⟨"INFO.20250101_000001.app", true, 5, 2, false⟩ : DirEnt),
         (⟨"INFO.20250101_000002.app", true, 5, 3, false⟩ : DirEnt)]
        "INFO" (fileNameOf "app"))
      = [⟨"INFO.20250101_000000.app", true, 5, 1, true⟩,
         ⟨"INFO.20250101_000001.app", true, 5, 2, false⟩,
         ⟨"INFO.20250101_000002.app", true, 5, 3, false⟩] := by
  decide

/-- Claim C6 amended: all filesystem errors during cleanup are caught
and never propagate; a listing error aborts cleanup before any deletion
(all matched files remain); a deletion error skips only that file — the
erroring file is never among the deleted ones, and deleted plus kept
files always partition the matched set, so the loop continues with the
remaining files instead of stopping. -/
theorem claim6_amended (entries : List DirEnt)
    (openPath logType baseFilename : String) (maxTotal : Nat) :
    cleanup_old_files true entries openPath logType baseFilename maxTotal
      = ([], matchedLogFiles entries logType (fileNameOf baseFilename))
  ∧ ((cleanup_old_files false entries openPath logType baseFilename
        maxTotal).1.all (fun f => !f.deleteFails)) = true
  ∧ List.Perm
      ((cleanup_old_files false entries openPath logType baseFilename
          maxTotal).1
        ++ (cleanup_old_files false entries openPath logType baseFilename
          maxTotal).2)
      (matchedLogFiles entries logType (fileNameOf baseFilename)) := by
  refine ⟨by simp [cleanup_old_files], ?_, ?_⟩
  · by_cases hlen :
        (matchedLogFiles entries logType (fileNameOf baseFilename)).length ≤ 1
    · simp [cleanup_old_files, hlen]
    · have H := cleanupLoop_deleted_spec openPath maxTotal
        (sortByMtime (matchedLogFiles entries logType (fileNameOf baseFilename)))
        (sumSizes (sortByMtime (matchedLogFiles entries logType
            (fileNameOf baseFilename))))
      simp only [cleanup_old_files, Bool.false_eq_true, if_false, if_neg hlen]
      exact List.all_eq_true.mpr (fun f hf => by simp [(H.1 f hf).2])
  · by_cases hlen :
        (matchedLogFiles entries logType (fileNameOf baseFilename)).length ≤ 1
    · simp [cleanup_old_files, hlen]
    · have H := cleanupLoop_perm openPath maxTotal
        (sortByMtime (matchedLogFiles entries logType (fileNameOf baseFilename)))
        (sumSizes (sortByMtime (matchedLogFiles entries logType
            (fileNameOf baseFilename))))
      simp only [cleanup_old_files, Bool.false_eq_true, if_false, if_neg hlen]
      exact H.trans (sortByMtime_perm _)

end MmLog

namespace MmLog

/-- A serialized run of `sink_it_` calls performs no rotation as long as
the true file size plus all pending bytes stays within `max_size`,
whatever the call times are: every under-lock double check fails. -/
theorem runSink_no_rotation :
    ∀ (l : List MsgEvent) (st : SinkState),
      st.currentSize = st.fileSize →
      st.fileSize + msgTotal l ≤ st.maxSize →
      (runSink st l).2 = 0
  | [], st, _, _ => by simp [runSink]
  | e :: rest, st, heq, hle => by
    have hb : ¬ st.fileSize + e.size > st.maxSize := by
      simp only [msgTotal] at hle
      omega
    have hc : ¬ st.currentSize + e.size > st.maxSize := by
      rw [heq]
      exact hb
    by_cases hs : should_check_rotation st e.now = true
    · have hcond : (decide (st.currentSize + e.size > st.maxSize)
          || should_check_rotation st e.now) = true := by
        simp [hs]
      simp only [runSink, sink_it_, hcond, if_true, if_neg hb, decide_eq_true_eq]
      have IH := runSink_no_rotation rest
        { st with currentSize := st.fileSize + e.size,
                  fileSize := st.fileSize + e.size, lastCheck := e.now }
        rfl (by simp only [msgTotal] at hle ⊢; omega)
      simp [IH]
    · have hcond : (decide (st.currentSize + e.size > st.maxSize)
          || should_check_rotation st e.now) = false := by
        simp [hc, Bool.or_eq_false_iff]
        exact Bool.eq_false_iff.mpr hs
      simp only [runSink, sink_it_, hcond, Bool.false_eq_true, if_false]
      have IH := runSink_no_rotation rest
        { st with currentSize := st.currentSize + e.size,
                  fileSize := st.fileSize + e.size }
        (by simp [heq]) (by simp only [msgTotal] at hle ⊢; omega)
      simp [IH]

/-- Claim C9: a single crossing of the size threshold causes exactly one
rotation.  Any number of racing writers (each of whose messages would
cross the threshold from the pre-rotation size, in whatever order they
pass through the sink's locks) produce exactly one new file: the first
arrival rotates, and every later double check under the lock sees the
fresh file and does not rotate again, provided the pending messages
together do not cross the threshold a second time. -/
theorem claim9_single_rotation (st : SinkState) (l : List MsgEvent)
    (heq : st.currentSize = st.fileSize)
    (hne : l ≠ [])
    (hrace : ∀ e ∈ l, st.maxSize < st.fileSize + e.size)
    (hsum : msgTotal l ≤ st.maxSize) :
    (runSink st l).2 = 1 := by
  cases l with
  | nil => exact absurd rfl hne
  | cons e rest =>
    have h1 : st.maxSize < st.fileSize + e.size :=
      hrace e (List.mem_cons_self e rest)
    have hrot : st.fileSize + e.size > st.maxSize := h1
    have hcond : (decide (st.currentSize + e.size > st.maxSize)
        || should_check_rotation st e.now) = true := by
      rw [heq]
      simp [h1]
    simp only [runSink, sink_it_, hcond, if_true, if_pos hrot]
    have IH := runSink_no_rotation rest
      { st with openFile := e.newFile, fileSize := e.size,
                currentSize := e.size, lastCheck := e.now }
      rfl (by simp only [msgTotal] at hsum ⊢; omega)
    simp [IH]

/-- Claim C9 witness: a 100-byte threshold file at 95 bytes with three
racing messages of 10, 20 and 30 bytes, each of which crosses the
threshold; the run performs exactly one rotation. -/
theorem claim9_witness :
    ((⟨100, 1000, 1, 95, 95, 0, "f"⟩ : SinkState).currentSize
        = (⟨100, 1000, 1, 95, 95, 0, "f"⟩ : SinkState).fileSize)
  ∧ ([(⟨10, 0, "g"⟩ : MsgEvent), ⟨20, 0, "h"⟩, ⟨30, 0, "i"⟩]
      ≠ ([] : List MsgEvent))
  ∧ (∀ e ∈ [(⟨10, 0, "g"⟩ : MsgEvent), ⟨20, 0, "h"⟩, ⟨30, 0, "i"⟩],
      (⟨100, 1000, 1, 95, 95, 0, "f"⟩ : SinkState).maxSize
        < (⟨100, 1000, 1, 95, 95, 0, "f"⟩ : SinkState).fileSize + e.size)
  ∧ msgTotal [(⟨10, 0, "g"⟩ : MsgEvent), ⟨20, 0, "h"⟩, ⟨30, 0, "i"⟩]
      ≤ (⟨100, 1000, 1, 95, 95, 0, "f"⟩ : SinkState).maxSize
  ∧ (runSink ⟨100, 1000, 1, 95, 95, 0, "f"⟩
      [(⟨10, 0, "g"⟩ : MsgEvent), ⟨20, 0, "h"⟩, ⟨30, 0, "i"⟩]).2 = 1 :=
  ⟨rfl, by decide, by decide, by decide,
   claim9_single_rotation ⟨100, 1000, 1, 95, 95, 0, "f"⟩
     [⟨10, 0, "g"⟩, ⟨20, 0, "h"⟩, ⟨30, 0, "i"⟩]
     rfl (by decide) (by decide) (by decide)⟩

/-- Once the call-once flag is consumed, any sequence of further
`Initialize` calls leaves the logger state untouched. -/
theorem loggerInitAll_stuck (st : LoggerState) (h1 : st.onceDone = true) :
    ∀ rest, loggerInitAll st rest = st
  | [] => rfl
  | a :: rest => by
    simp only [loggerInitAll, loggerInit, h1, if_true]
    exact loggerInitAll_stuck st h1 rest

/-- Claim C10: a first `Initialize` call with console and file logging
both disabled returns false and creates no sinks and registers no
logger; the call-once flag is consumed, so every subsequent `Initialize`
call (with any arguments) changes nothing and also returns false, and
every later `Log` call writes nothing. -/
theorem claim10_disabled_init (dbg pf : Bool) (a2 : InitArgs)
    (rest : List InitArgs) (isDbg : Bool) :
    ((loggerInit loggerInitialState ⟨dbg, false, false, pf⟩).2 = false)
  ∧ (loggerInit loggerInitialState ⟨dbg, false, false, pf⟩).1.sinkCount = 0
  ∧ (loggerInit loggerInitialState ⟨dbg, false, false, pf⟩).1.registered = false
  ∧ loggerInit (loggerInit loggerInitialState ⟨dbg, false, false, pf⟩).1 a2
      = ((loggerInit loggerInitialState ⟨dbg, false, false, pf⟩).1, false)
  ∧ loggerInitAll (loggerInit loggerInitialState ⟨dbg, false, false, pf⟩).1 rest
      = (loggerInit loggerInitialState ⟨dbg, false, false, pf⟩).1
  ∧ logWrites (loggerInit loggerInitialState ⟨dbg, false, false, pf⟩).1 isDbg
      = false := by
  have hst : loggerInit loggerInitialState ⟨dbg, false, false, pf⟩
      = ({ onceDone := true, initialized := false, enableDebug := dbg,
           enableConsole := false, enableFile := false, sinkCount := 0,
           registered := false }, false) := by
    simp [loggerInit, loggerInitialState]
  rw [hst]
  refine ⟨rfl, rfl, rfl, ?_, ?_, rfl⟩
  · simp [loggerInit]
  · exact loggerInitAll_stuck _ rfl rest

end MmLog
